import Mathlib

/-!
Verification of the gossip IRC server core against its specification.
Each section shallowly embeds one component of the Go source and proves
or refutes the corresponding specification claims.
-/

set_option maxRecDepth 10000

namespace Gossip

/-! ## String helpers (strings.Split with a one-character separator, and
strings.ToUpper for ASCII, from the Go standard library) -/

/-- Split a character list on a separator character; like Go's
`strings.Split`, the empty input yields one empty field. -/
def splitChar (sep : Char) : List Char → List (List Char)
  | [] => [[]]
  | c :: rest =>
    let r := splitChar sep rest
    if c = sep then [] :: r
    else
      match r with
      | h :: t => (c :: h) :: t
      | [] => [[c]]

/-- String form of `splitChar`. -/
def splitStr (s : String) (sep : Char) : List String :=
  (splitChar sep s.toList).map String.mk

/-- ASCII uppercasing of one character. -/
def asciiUpper (c : Char) : Char :=
  if 'a' ≤ c ∧ c ≤ 'z' then Char.ofNat (c.toNat - 32) else c

/-- ASCII `strings.ToUpper`. -/
def strUpper (s : String) : String := String.mk (s.toList.map asciiUpper)

/-! ## Command dispatcher (server/exec.go: commandMap, executeMessage) -/

/-- Result of dispatching one message: silently discarded before
registration, handled by the named handler, or answered with
ERR_UNKNOWNCOMMAND. -/
inductive DispatchResult
  | discarded
  | handled (verb : String)
  | unknownCommand
  deriving DecidableEq, Repr

/-- Verbs registered in `commandMap` in the source. -/
def commandMap : List String :=
  ["PASS", "NICK", "USER", "QUIT", "CAP",
   "JOIN", "PART", "TOPIC", "NAMES", "LIST", "INVITE", "KICK",
   "MOTD", "LUSERS", "TIME", "MODE",
   "WHO", "WHOIS",
   "PRIVMSG", "NOTICE",
   "PING", "PONG", "WALLOPS", "ERROR",
   "AWAY"]

/-- Embedding of `Server.executeMessage`: an unregistered client's message
is dropped unless its command is exactly CAP, NICK, USER or PASS; otherwise
the upper-cased verb is looked up in `commandMap`. -/
def executeMessage (registered : Bool) (command : String) : DispatchResult :=
  if ¬registered ∧ command ≠ "CAP" ∧ command ≠ "NICK" ∧ command ≠ "USER" ∧ command ≠ "PASS" then
    .discarded
  else if commandMap.contains (strUpper command) then
    .handled (strUpper command)
  else
    .unknownCommand

/-! ## Flood control (client/client.go: grants, ReadMsg) -/

inductive ReadErr
  | flood
  | msgSizeOverflow
  | eof
  deriving DecidableEq, Repr

/-- Embedding of `Client.requestGrant`: the buffered channel receive
succeeds exactly when at least one grant is present. -/
def requestGrant (grants : Nat) : Option Nat :=
  if grants = 0 then none else some (grants - 1)

/-- Embedding of `Client.AddGrant`: the send succeeds only while the
buffered channel (capacity 10) is not full. -/
def AddGrant (grants : Nat) : Nat :=
  if grants < 10 then grants + 1 else grants

/-- Embedding of `Client.FillGrants`: ten calls to `AddGrant`. -/
def FillGrants (grants : Nat) : Nat :=
  (List.range 10).foldl (fun g _ => AddGrant g) grants

/-- Grant count of a freshly constructed client (`client.New` creates the
empty grant channel and calls `FillGrants`). -/
def newClientGrants : Nat := FillGrants 0

/-- Inner read loop of `ReadMsg`: scan at most `fuel` bytes (the
`maxMsgSize` buffer) for a newline; running out of buffer yields
`ErrMsgSizeOverflow`, running out of input is a read error. -/
def readLoop : Nat → List Char → List Char → Except ReadErr (List Char)
  | 0, _, _ => .error .msgSizeOverflow
  | _ + 1, [], _ => .error .eof
  | fuel + 1, b :: rest, acc =>
    if b = '\n' then .ok (b :: acc).reverse else readLoop fuel rest (b :: acc)

/-- Embedding of `Client.ReadMsg`: request a grant first (returning
`ErrFlood` when none remain), then read up to `maxMsgSize` bytes looking
for a newline. Returns the result together with the remaining grants. -/
def ReadMsg (grants : Nat) (input : List Char) (maxMsgSize : Nat) :
    Except ReadErr (List Char) × Nat :=
  match requestGrant grants with
  | none => (.error .flood, grants)
  | some g => (readLoop maxMsgSize input [], g)

/-- One fixed inbound line used to exercise successive reads. -/
def pingLine : List Char := ['P', 'I', 'N', 'G', '\n']

/-- Results of `n` successive `ReadMsg` calls starting from `grants`
grants, each presented with `pingLine` and no refill in between. -/
def readMsgSeq : Nat → Nat → List (Except ReadErr (List Char))
  | 0, _ => []
  | n + 1, grants =>
    let r := ReadMsg grants pingLine 512
    r.1 :: readMsgSeq n r.2

/-! ## WALLOPS handler (server/exec.go: WALLOPS) -/

/-- Client state relevant to WALLOPS delivery: its nick and whether the
Wallops user mode is set. -/
structure WClient where
  nick : String
  wallops : Bool
  deriving DecidableEq, Repr

/-- Observable effect of the WALLOPS handler. -/
inductive WEv
  | needMoreParams (cmd : String)
  | writeTo (nick : String) (line : String)
  deriving DecidableEq, Repr

/-- Delivery loop of WALLOPS: for each client with the Wallops mode, the
handler formats a line from `params[1]`; that index is read through
`List.get?`, and an out-of-bounds read aborts with `none` (the Go code
panics there). -/
def wallopsLoop (serverName : String) (params : List String) :
    List WClient → Option (List WEv)
  | [] => some []
  | v :: rest =>
    if v.wallops then
      match params.get? 1 with
      | none => none
      | some text => do
        let evs ← wallopsLoop serverName params rest
        some (.writeTo v.nick (serverName ++ " WALLOPS " ++ text) :: evs)
    else
      wallopsLoop serverName params rest

/-- Embedding of the WALLOPS handler: reject unless exactly one parameter
was given, then broadcast to every Wallops-mode client using `params[1]`. -/
def WALLOPS (serverName : String) (clients : List WClient) (params : List String) :
    Option (List WEv) :=
  if params.length ≠ 1 then
    some [.needMoreParams "WALLOPS"]
  else
    wallopsLoop serverName params clients

/-! ## PRIVMSG / NOTICE (server/exec.go: PRIVMSG, NOTICE, communicate) -/

/-- Client state relevant to messaging: a pointer identity `id`, the
identity triple used by `Client.String`, the Away mode with its message,
and the set of negotiated capabilities. -/
structure CClient where
  id : Nat
  nick : String
  user : String
  host : String
  away : Bool
  awayMsg : String
  caps : List String
  deriving DecidableEq, Repr

/-- Channel membership entry: the pointer identity of the underlying
client and the channel-role string (`Member.Prefix` in the source). -/
structure CMember where
  clientId : Nat
  pfx : String
  deriving DecidableEq, Repr

/-- Channel state used by `communicate`: the no-external and moderated
mode flags and the nick-indexed member map (as an association list). -/
structure CChan where
  noExternal : Bool
  moderated : Bool
  members : List (String × CMember)
  deriving DecidableEq, Repr

/-- Registry state used by `communicate`: the nick-indexed client map and
the name-indexed channel map. -/
structure CServer where
  clients : List (String × CClient)
  channels : List (String × CChan)
  deriving DecidableEq, Repr

/-- Association-list lookup standing in for the Go map reads
(`s.GetClient`, `s.GetChannel`, `ch.GetMember`). -/
def alist.lookup {α : Type} (l : List (String × α)) (k : String) : Option α :=
  match l with
  | [] => none
  | (k', v) :: rest => if k' = k then some v else alist.lookup rest k

/-- Embedding of `Client.String`: `nick!user@host`, degrading when user or
host is empty. -/
def clientStr (c : CClient) : String :=
  if c.user ≠ "" then c.nick ++ "!" ++ c.user ++ "@" ++ c.host
  else if c.host ≠ "" then c.nick ++ "@" ++ c.host
  else if c.nick ≠ "" then c.nick
  else ""

/-- Numeric replies issued by `communicate`. -/
inductive CReply
  | noTextToSend
  | noSuchChannel (target : String)
  | cannotSendToChan (ch : String)
  | rplAway (nick : String) (awayMsg : String)
  | noSuchNick (target : String)
  deriving DecidableEq, Repr

/-- Observable effect of `communicate`: a line written to a client
(identified by pointer identity) or a numeric reply to some client. -/
inductive CEv
  | write (toId : Nat) (line : String)
  | numeric (toId : Nat) (reply : CReply)
  deriving DecidableEq, Repr

/-- Embedding of `isChannel`: the Go code reads `s[0]`, so an empty
string is an out-of-bounds access (modelled as `none`). -/
def isChannel (s : String) : Option Bool :=
  match s.toList with
  | [] => none
  | ch :: _ => some (ch = '#' ∨ ch = '&')

/-- Message line written to each recipient by `communicate`. -/
def commLine (c : CClient) (command target msgText : String) : String :=
  ":" ++ clientStr c ++ " " ++ command ++ " " ++ target ++ " :" ++ msgText

/-- Recipient loop of `communicate`. Error branches inside the channel
case `return` from the Go function (the loop stops, keeping the events
emitted so far); the unknown-nick branch does not. Dereferencing a nil
channel (NOTICE to a nonexistent channel) and `isChannel` on an empty
name are panics, modelled as `none`. -/
def commLoop (s : CServer) (c : CClient) (notice : Bool) (command msgText : String) :
    List String → Option (List CEv)
  | [] => some []
  | v :: rest =>
    match isChannel v with
    | none => none
    | some true =>
      match alist.lookup s.channels v with
      | none =>
        if ¬notice then some [.numeric c.id (.noSuchChannel v)]
        else none
      | some ch =>
        match alist.lookup ch.members c.nick with
        | none =>
          if ch.noExternal then some [.numeric c.id (.cannotSendToChan v)]
          else do
            let evs ← commLoop s c notice command msgText rest
            some (((ch.members.filter (fun p => p.2.clientId ≠ c.id)).map
              (fun p => CEv.write p.2.clientId (commLine c command v msgText))) ++ evs)
        | some m =>
          if ch.moderated ∧ m.pfx = "" then some [.numeric c.id (.cannotSendToChan v)]
          else do
            let evs ← commLoop s c notice command msgText rest
            some (((ch.members.filter (fun p => p.2.clientId ≠ c.id)).map
              (fun p => CEv.write p.2.clientId (commLine c command v msgText))) ++ evs)
    | some false =>
      match alist.lookup s.clients v with
      | some target =>
        if target.away then do
          let evs ← commLoop s c notice command msgText rest
          some (.numeric c.id (.rplAway target.nick target.awayMsg) :: evs)
        else do
          let evs ← commLoop s c notice command msgText rest
          some (.write target.id (commLine c command v msgText) :: evs)
      | none =>
        if ¬notice then do
          let evs ← commLoop s c notice command msgText rest
          some (.numeric c.id (.noSuchNick v) :: evs)
        else
          commLoop s c notice command msgText rest

/-- Embedding of `Server.communicate`: the missing-text guard fires only
when `notice` is false; afterwards `params[0]` and `params[1]` are read
unconditionally (out of bounds yields `none`, the Go panic), and the
recipient list is `params[0]` split on commas. -/
def communicate (s : CServer) (params : List String) (c : CClient) (notice : Bool) :
    Option (List CEv) :=
  let command := if notice then "NOTICE" else "PRIVMSG"
  if ¬notice ∧ params.length < 2 then
    some [.numeric c.id .noTextToSend]
  else do
    let p0 ← params.get? 0
    let msgText ← params.get? 1
    commLoop s c notice command msgText (splitStr p0 ',')

/-! ## Channel lifecycle (server/exec.go: JOIN, PART, QUIT, KICK) -/

/-- Channel membership entry for the lifecycle model; `pfx` is the
channel-role string (`Member.Prefix`). -/
structure LMember where
  pfx : String
  deriving DecidableEq, Repr

/-- Channel state for the lifecycle model: identity, admission
controls, and the nick-indexed member map. -/
structure LChan where
  chanType : Char
  name : String
  key : String
  limit : Option Nat
  inviteOnly : Bool
  invited : List String
  ban : List String
  banExcept : List String
  inviteExcept : List String
  members : List (String × LMember)
  deriving DecidableEq, Repr

/-- Client identity for the lifecycle model. -/
structure LClient where
  nick : String
  user : String
  host : String
  deriving DecidableEq, Repr

/-- Registry state for the lifecycle model: the channel map. -/
structure LServer where
  channels : List (String × LChan)
  deriving DecidableEq, Repr

/-- Association-list overwrite standing in for Go map assignment. -/
def alist.set {α : Type} (l : List (String × α)) (k : String) (v : α) :
    List (String × α) :=
  match l with
  | [] => [(k, v)]
  | (k', v') :: rest => if k' = k then (k, v) :: rest else (k', v') :: alist.set rest k v

/-- Association-list delete standing in for Go map deletion. -/
def alist.delete {α : Type} (l : List (String × α)) (k : String) :
    List (String × α) :=
  match l with
  | [] => []
  | (k', v') :: rest => if k' = k then rest else (k', v') :: alist.delete rest k

/-- Embedding of `Channel.String`: the type character followed by the
name. -/
def lchanStr (ch : LChan) : String :=
  String.singleton ch.chanType ++ ch.name

/-- Modelled from the spec: `Member.Is` (the Member type is not under
src/); a member has a channel role when its character appears in the
member's role string. -/
def memberIs (m : LMember) (modeChar : Char) : Bool :=
  m.pfx.toList.contains modeChar

/-- Modelled from the spec: `wild.Match` (the wild package is not under
src/); glob matching with `*` and `?`. -/
def wildMatch : List Char → List Char → Bool
  | [], [] => true
  | '*' :: ps, [] => wildMatch ps []
  | '*' :: ps, c :: cs => wildMatch ps (c :: cs) || wildMatch ('*' :: ps) cs
  | p :: ps, c :: cs => (p = '?' || p = c) && wildMatch ps cs
  | _ :: _, [] => false
  | [], _ :: _ => false
  termination_by p s => (p.length, s.length)

/-- Admission failures of `channel.Admit`. -/
inductive AdmitErr
  | keyErr
  | limitErr
  | inviteErr
  | banErr
  deriving DecidableEq, Repr

/-- Modelled from the spec: `channel.Admit` (not under src/). Fails with
KeyErr if a key is set and mismatched, LimitErr if the limit is reached,
InviteErr if invite-only and the nick is neither invited nor matched by
an invite-exception mask, BanErr if a banmask matches `nick!user@host`
and no exception mask does; on success the client is added as a member
with an empty role string. -/
def Admit (ch : LChan) (c : LClient) (key : String) : Except AdmitErr LChan :=
  let hostmask := c.nick ++ "!" ++ c.user ++ "@" ++ c.host
  if ch.key ≠ "" ∧ ch.key ≠ key then .error .keyErr
  else if (match ch.limit with
           | some l => decide (ch.members.length ≥ l)
           | none => false) then .error .limitErr
  else if ch.inviteOnly ∧ c.nick ∉ ch.invited ∧
      ¬ ch.inviteExcept.any (fun msk => wildMatch msk.toList hostmask.toList) then
    .error .inviteErr
  else if ch.ban.any (fun msk => wildMatch msk.toList hostmask.toList) ∧
      ¬ ch.banExcept.any (fun msk => wildMatch msk.toList hostmask.toList) then
    .error .banErr
  else .ok { ch with members := alist.set ch.members c.nick ⟨""⟩ }

/-- Channels the client currently belongs to (`Server.channelsOf`, not
under src/: the registry entries whose member map contains the nick). -/
def channelsOf (s : LServer) (c : LClient) : List (String × LChan) :=
  s.channels.filter (fun p => (alist.lookup p.2.members c.nick).isSome)

/-- Loop body of PART. `clientBelongstoChan` returns the channel whenever
it exists in the registry — even when the client is not a member (its
doc comment promises nil in that case, but only the reply is sent) — so
the length-one test and the deletion below run for non-members too.
A missing channel makes the whole handler return. -/
def partLoop (c : LClient) : LServer → List String → LServer
  | s, [] => s
  | s, v :: rest =>
    match alist.lookup s.channels v with
    | none => s
    | some ch =>
      let chDel : LChan := { ch with members := alist.delete ch.members c.nick }
      let s' :=
        if ch.members.length = 1 then
          { s with channels := alist.delete s.channels (lchanStr ch) }
        else
          { s with channels := alist.set s.channels v chDel }
      partLoop c s' rest

/-- Embedding of the PART handler (registry effects only; broadcast
writes and numeric replies are not modelled). `params[0]` is read
unguarded, so an empty parameter list is a panic (`none`). -/
def PART (s : LServer) (c : LClient) (params : List String) : Option LServer :=
  match params.get? 0 with
  | none => none
  | some p0 => some (partLoop c s (splitStr p0 ','))

/-- Embedding of the QUIT handler's channel effects: for each channel the
client belongs to, delete the channel when it has exactly one member,
otherwise delete the membership. -/
def QUIT (s : LServer) (c : LClient) : LServer :=
  (channelsOf s c).foldl
    (fun s p =>
      let chDel : LChan := { p.2 with members := alist.delete p.2.members c.nick }
      if p.2.members.length = 1 then
        { s with channels := alist.delete s.channels (lchanStr p.2) }
      else
        { s with channels := alist.set s.channels p.1 chDel })
    s

/-- Loop of JOIN over the comma-separated channel list with the parallel
key list. An admission error makes the whole handler return; creating a
channel whose name fails the type-character test also returns; a
zero-length channel name is a panic (`chans[i][0]`). -/
def joinLoop (c : LClient) (keys : List String) :
    LServer → Nat → List String → Option LServer
  | s, _, [] => some s
  | s, i, v :: rest =>
    match alist.lookup s.channels v with
    | some ch =>
      match Admit ch c (keys.getD i "") with
      | .error _ => some s
      | .ok ch' =>
        joinLoop c keys { s with channels := alist.set s.channels v ch' } (i + 1) rest
    | none =>
      match v.toList with
      | [] => none
      | c0 :: nameRest =>
        if c0 ≠ '#' ∧ c0 ≠ '&' then some s
        else
          let newChan : LChan :=
            { chanType := c0, name := String.mk nameRest, key := "", limit := none,
              inviteOnly := false, invited := [], ban := [], banExcept := [],
              inviteExcept := [],
              members := [(c.nick, ⟨"~"⟩)] }
          joinLoop c keys { s with channels := alist.set s.channels v newChan }
            (i + 1) rest

/-- Embedding of the JOIN handler (registry effects only). `JOIN 0`
parts every channel of the client; otherwise each listed channel is
either admitted to or created with the joiner as founder (`~`). -/
def JOIN (s : LServer) (c : LClient) (params : List String) : Option LServer :=
  match params.get? 0 with
  | none => some s
  | some p0 =>
    if p0 = "0" then
      (channelsOf s c).foldlM (fun s p => PART s c [lchanStr p.2]) s
    else
      let chans := splitStr p0 ','
      let keys := match params.get? 1 with
        | some p1 => splitStr p1 ','
        | none => []
      joinLoop c keys s 0 chans

/-- Kick loop over the user list of one channel: each user found in the
member map is deleted; the channel itself is never deleted, regardless
of how many members remain. -/
def kickUsers (ch : LChan) (users : List String) : LChan :=
  users.foldl
    (fun ch u =>
      match alist.lookup ch.members u with
      | none => ch
      | some _ => { ch with members := alist.delete ch.members u })
    ch

/-- One channel/user step of the multi-channel KICK branch. -/
def kickOne (c : LClient) (s : LServer) (v u : String) : LServer :=
  match alist.lookup s.channels v with
  | none => s
  | some ch =>
    match alist.lookup ch.members c.nick with
    | none => s
    | some self =>
      if ¬ memberIs self '@' then s
      else { s with channels := alist.set s.channels v (kickUsers ch [u]) }

/-- Embedding of the KICK handler (registry effects only): exactly two
parameters are required; with one channel, every listed user who is a
member is removed, provided the kicker is a member with the operator
role; with equally many channels and users they are paired up. -/
def KICK (s : LServer) (c : LClient) (params : List String) : LServer :=
  if params.length ≠ 2 then s
  else
    let chans := splitStr (params.getD 0 "") ','
    let users := splitStr (params.getD 1 "") ','
    if chans.length = 1 then
      let v := chans.getD 0 ""
      match alist.lookup s.channels v with
      | none => s
      | some ch =>
        match alist.lookup ch.members c.nick with
        | none => s
        | some self =>
          if ¬ memberIs self '@' then s
          else { s with channels := alist.set s.channels v (kickUsers ch users) }
    else if chans.length = users.length then
      (List.zip chans users).foldl (fun s p => kickOne c s p.1 p.2) s
    else s

/-- Concrete clients for the lifecycle scenario. -/
def lAlice : LClient := ⟨"alice", "alice", "h"⟩

/-- Second concrete client; never joins any channel. -/
def lBob : LClient := ⟨"bob", "bob", "h"⟩

/-- Empty registry. -/
def lState0 : LServer := ⟨[]⟩

/-- Channel `#a` as created by alice's JOIN: alice is its only member,
holding the founder role. -/
def lChanA : LChan :=
  { chanType := '#', name := "a", key := "", limit := none, inviteOnly := false,
    invited := [], ban := [], banExcept := [], inviteExcept := [],
    members := [("alice", ⟨"~"⟩)] }

/-- Registry after alice creates `#a`. -/
def lState1 : LServer := ⟨[("#a", lChanA)]⟩

/-! ## Base64 (encoding/base64 StdEncoding, used by sasl/scram.go) -/

/-- Standard base64 alphabet. -/
def b64Alphabet : List Char :=
  "ABCDEFGHIJKLMNOPQRSTUVWXYZabcdefghijklmnopqrstuvwxyz0123456789+/".toList

/-- Character for a 6-bit group. -/
def b64CharOf (n : Nat) : Char := b64Alphabet.getD n 'A'

/-- RFC 4648 standard encoding of a byte list (`base64.StdEncoding`,
from the Go standard library): three bytes map to four alphabet
characters, with `=` padding. -/
def b64EncodeChars : List Nat → List Char
  | [] => []
  | [a] => [b64CharOf (a / 4), b64CharOf (a % 4 * 16), '=', '=']
  | [a, b] =>
    [b64CharOf (a / 4), b64CharOf (a % 4 * 16 + b / 16), b64CharOf (b % 16 * 4), '=']
  | a :: b :: c :: rest =>
    b64CharOf (a / 4) :: b64CharOf (a % 4 * 16 + b / 16) ::
      b64CharOf (b % 16 * 4 + c / 64) :: b64CharOf (c % 64) :: b64EncodeChars rest

/-- String form of the standard base64 encoding. -/
def b64encode (bs : List Nat) : String := String.mk (b64EncodeChars bs)

/-- Value of one base64 alphabet character, `none` for characters
outside the alphabet. -/
def b64Val (c : Char) : Option Nat := b64Alphabet.indexOf? c

/-- RFC 4648 standard decoding (`base64.StdEncoding.DecodeString`): the
input must consist of four-character groups, `=` padding may only end
the input, and any character outside the alphabet is rejected. -/
def b64DecodeChars : List Char → Option (List Nat)
  | [] => some []
  | c1 :: c2 :: c3 :: c4 :: rest => do
    let v1 ← b64Val c1
    let v2 ← b64Val c2
    if c3 = '=' then
      if c4 = '=' ∧ rest = [] then some [v1 * 4 + v2 / 16] else none
    else do
      let v3 ← b64Val c3
      if c4 = '=' then
        if rest = [] then some [v1 * 4 + v2 / 16, v2 % 16 * 16 + v3 / 4] else none
      else do
        let v4 ← b64Val c4
        let tail ← b64DecodeChars rest
        some ((v1 * 4 + v2 / 16) :: (v2 % 16 * 16 + v3 / 4) :: (v3 % 4 * 64 + v4) :: tail)
  | _ => none

/-- String form of the standard base64 decoding. -/
def b64decode (s : String) : Option (List Nat) := b64DecodeChars s.toList

/-! ## SCRAM (sasl/scram.go) -/

/-- Stored SCRAM credential (`sasl.Credential`): ServerKey, StoredKey,
salt and iteration count. -/
structure Credential where
  serverKey : List Nat
  storedKey : List Nat
  salt : List Nat
  iteration : Nat
  deriving DecidableEq, Repr

/-- State of one SCRAM exchange (`sasl.Scram`). The Go struct also
carries the hash function `H`; hash and HMAC (Go's `crypto/hmac`, which
derives the MAC from `H`) are standard-library code and enter the
embedding as explicit function parameters of `GenServerFinal`. -/
structure Scram where
  username : String
  nonce : String
  proof : List Nat
  clientFirstBare : String
  serverFirst : String
  clientFinalWithoutProof : String
  cred : Credential
  deriving DecidableEq, Repr

/-- Embedding of `bytewiseXOR`: length mismatch yields the nil slice,
modelled as the empty list. -/
def bytewiseXOR (b1 b2 : List Nat) : List Nat :=
  if b1.length ≠ b2.length then []
  else List.zipWith (fun x y => x ^^^ y) b1 b2

/-- Go string slicing `s[n:]`: panics (modelled `none`) when `n` exceeds
the string length. -/
def goSliceFrom (s : String) (n : Nat) : Option String :=
  if n ≤ s.length then some (s.drop n) else none

/-- Embedding of `Scram.ParseClientFinal`: split the client-final
message on commas, require at least three attributes, check the combined
nonce against the server's, base64-decode the proof, and record the
client-final-without-proof prefix. The outer `Option` models the panics
of the unguarded `[2:]` slicings. -/
def ParseClientFinal (st : Scram) (m : String) : Option (Except String Scram) :=
  let attrs := splitStr m ','
  if attrs.length < 3 then some (.error "e=other-error")
  else
    match goSliceFrom (attrs.getD 1 "") 2 with
    | none => none
    | some nonce =>
      if nonce ≠ st.nonce then some (.error "e=other-error")
      else
        match goSliceFrom (attrs.getD 2 "") 2 with
        | none => none
        | some pEnc =>
          match b64decode pEnc with
          | none => some (.error "e=invalid-encoding")
          | some proofBytes =>
            some (.ok { st with
              proof := proofBytes,
              clientFinalWithoutProof := String.intercalate "," (attrs.take 2) })

/-- Embedding of `Scram.GenServerFinal`, parameterized by the hash
function `H` and the HMAC construction (both Go standard-library code):
reconstruct the auth message, recover ClientKey as the XOR of the client
signature and the proof, and accept exactly when its hash equals the
stored key, answering with the base64 server signature. -/
def GenServerFinal (hashF : List Nat → List Nat)
    (hmacF : List Nat → String → List Nat) (st : Scram) : Except String String :=
  let authMsg :=
    st.clientFirstBare ++ "," ++ st.serverFirst ++ "," ++ st.clientFinalWithoutProof
  let clientSignature := hmacF st.cred.storedKey authMsg
  let clientKey := bytewiseXOR clientSignature st.proof
  let storedKey := hashF clientKey
  if storedKey = st.cred.storedKey then
    .ok ("v=" ++ b64encode (hmacF st.cred.serverKey authMsg))
  else
    .error "e=invalid-proof"

/-! ## AUTHENTICATE (server/auth.go, capability/cap.go) -/

/-- The three SASL mechanism objects the handler can construct. -/
inductive SASLMechKind
  | plain
  | external
  | scram
  deriving DecidableEq, Repr

/-- Client state read and written by the AUTHENTICATE handler. -/
structure AuthClient where
  isAuthenticated : Bool
  registered : Bool
  saslMech : Option SASLMechKind
  deriving DecidableEq, Repr

/-- Replies the AUTHENTICATE handler can produce; `continuation` stands
for the mechanism-continuation path (base64 decode plus `Next`), which
is outside this claim. -/
inductive AuthReply
  | saslAlready
  | saslAborted
  | needMoreParams (cmd : String)
  | saslMechs (mechs : String)
  | line (s : String)
  | continuation
  deriving DecidableEq, Repr

/-- Advertised value of the `sasl` capability (capability/cap.go). -/
def saslCapValue : String := "PLAIN,EXTERNAL,SCRAM-SHA-256"

/-- Embedding of the AUTHENTICATE handler: reject when already
authenticated, abort when registration completed mid-exchange, require a
parameter, honor the `*` abort, and otherwise select a mechanism by the
literal strings PLAIN, EXTERNAL and SCRAM — any other name, including
the advertised SCRAM-SHA-256, falls to RPL_SASLMECHS. -/
def AUTHENTICATE (c : AuthClient) (params : List String) : AuthReply × AuthClient :=
  if c.isAuthenticated then (.saslAlready, c)
  else if c.registered ∧ c.saslMech ≠ none ∧ c.isAuthenticated = false then
    (.saslAborted, { c with saslMech := none })
  else
    match params with
    | [] => (.needMoreParams "AUTHENTICATE", c)
    | p0 :: _ =>
      if p0 = "*" then (.saslAborted, { c with saslMech := none })
      else
        match c.saslMech with
        | none =>
          match p0 with
          | "PLAIN" => (.line "AUTHENTICATE +", { c with saslMech := some .plain })
          | "EXTERNAL" => (.line "AUTHENTICATE +", { c with saslMech := some .external })
          | "SCRAM" => (.line "AUTHENTICATE +", { c with saslMech := some .scram })
          | _ => (.saslMechs saslCapValue, c)
        | some _ => (.continuation, c)

/-! ## Message parser (scan/msg/parse.go; token classes modelled from the
spec, the msg lexer's state functions not being under src/) -/

/-- Token classes of the message tokenizer. -/
inductive TokenType
  | letter
  | digit
  | at
  | exclam
  | colon
  | semicolon
  | equals
  | clientPfx
  | fwdSlash
  | space
  | cr
  | lf
  | dot
  | other
  deriving DecidableEq, Repr

/-- One lexed token: its class and the character it stands for. -/
structure Token where
  tokenType : TokenType
  value : Char
  deriving DecidableEq, Repr

/-- Embedding of `scan.IsLetter` (ASCII letters). -/
def IsLetter (c : Char) : Bool :=
  decide (('a' ≤ c ∧ c ≤ 'z') ∨ ('A' ≤ c ∧ c ≤ 'Z'))

/-- Embedding of `scan.IsDigit` (ASCII digits). -/
def IsDigit (c : Char) : Bool :=
  decide ('0' ≤ c ∧ c ≤ '9')

/-- Modelled from the spec: the tokenizer's classification of one input
byte into the token classes `letter, digit, @, !, :, ;, =, + (client
prefix), /, space, CR, LF, dot, other`. -/
def classify (c : Char) : TokenType :=
  if c = '@' then .at
  else if c = '!' then .exclam
  else if c = ':' then .colon
  else if c = ';' then .semicolon
  else if c = '=' then .equals
  else if c = '+' then .clientPfx
  else if c = '/' then .fwdSlash
  else if c = ' ' then .space
  else if c = '\r' then .cr
  else if c = '\n' then .lf
  else if c = '.' then .dot
  else if IsLetter c then .letter
  else if IsDigit c then .digit
  else .other

/-- Token for one input character. -/
def tokOf (c : Char) : Token := ⟨classify c, c⟩

/-- Tokenization of a byte list: one token per byte. -/
def lexL (cs : List Char) : List Token := cs.map tokOf

/-- Embedding of `isNospcrlfcl`: not NUL, CR, LF, colon or space. -/
def isNospcrlfcl (r : Char) : Bool :=
  decide (r ≠ Char.ofNat 0 ∧ r ≠ '\r' ∧ r ≠ '\n' ∧ r ≠ ':' ∧ r ≠ ' ')

/-- Embedding of `isKeyname`: ASCII letters, digits and hyphen. -/
def isKeyname (r : Char) : Bool :=
  IsLetter r || IsDigit r || decide (r = '-')

/-- Embedding of `isEscaped`: not NUL, CR, LF, semicolon or space. -/
def isEscaped (r : Char) : Bool :=
  decide (r ≠ Char.ofNat 0 ∧ r ≠ '\r' ∧ r ≠ '\n' ∧ r ≠ ';' ∧ r ≠ ' ')

/-- Parsed tag value (`msg.TagVal`): vendor, escaped value, and the
client-prefix flag. -/
structure TagVal where
  vendor : String
  value : String
  clientPfx : Bool
  deriving DecidableEq, Repr

/-- Embedding of `key`: accumulate keyname characters (kept reversed for
linear cost); a dot is accepted tentatively, a following slash turns the
accumulated name into the vendor, and a dot that stays inside the key
makes the tag ill-formed (both results empty). The parser position is
not advanced past the offending token. -/
def keyF (ud : Bool) (vendor name : List Char) : List Token → String × String × List Token
  | [] =>
    if ud then ("", "", [])
    else (String.mk vendor.reverse, String.mk name.reverse, [])
  | k :: rest =>
    if ¬ isKeyname k.value then
      if k.value = '.' then keyF true vendor ('.' :: name) rest
      else if k.tokenType = .fwdSlash then keyF false name [] rest
      else if ud then ("", "", k :: rest)
      else (String.mk vendor.reverse, String.mk name.reverse, k :: rest)
    else keyF ud vendor (k.value :: name) rest

/-- Embedding of `escapedVal`: longest run of escaped-value characters. -/
def escapedLoop (acc : List Char) : List Token → String × List Token
  | [] => (String.mk acc.reverse, [])
  | t :: rest =>
    if isEscaped t.value then escapedLoop (t.value :: acc) rest
    else (String.mk acc.reverse, t :: rest)

/-- Remainder of `tag` after the optional client prefix has been
consumed: the key, then an optional `=`-introduced escaped value. -/
def tagFAfterPfx (cpfx : Bool) (ts1 : List Token) : String × TagVal × List Token :=
  match keyF false [] [] ts1 with
  | (vendor, k, ts2) =>
    match ts2 with
    | t :: rest =>
      if t.tokenType = TokenType.equals then
        match escapedLoop [] rest with
        | (v, ts3) => (k, ⟨vendor, v, cpfx⟩, ts3)
      else (k, ⟨vendor, "", cpfx⟩, ts2)
    | [] => (k, ⟨vendor, "", cpfx⟩, ts2)

/-- Embedding of `tag`: optional client prefix, then the key, then an
optional `=`-introduced escaped value. -/
def tagF (ts : List Token) : String × TagVal × List Token :=
  match ts with
  | t :: rest =>
    if t.tokenType = TokenType.clientPfx then tagFAfterPfx true rest
    else tagFAfterPfx false ts
  | [] => tagFAfterPfx false ts

/-- Loop of `tags` over `;`-separated tags, inserting into the tag map.
The first argument is fuel: every iteration consumes at least the
semicolon, so a fuel list at least as long as the input (the input
itself is passed) can never run out. -/
def tagsLoop : List Token → List (String × TagVal) → List Token →
    List (String × TagVal) × List Token
  | [], acc, ts => (acc, ts)
  | _ :: fuel, acc, ts =>
    match ts with
    | ⟨TokenType.semicolon, _⟩ :: rest =>
      let (k, v, r) := tagF rest
      tagsLoop fuel (alist.set acc k v) r
    | _ => (acc, ts)

/-- Embedding of `tags`: at least one tag, then `;`-separated further
tags. -/
def tagsF (ts : List Token) : List (String × TagVal) × List Token :=
  let (k, v, r) := tagF ts
  tagsLoop r (alist.set [] k v) r

/-- Nick part of `source`: up to space, `!` or `@`. -/
def sourceNick (acc : List Char) : List Token → String × List Token
  | [] => (String.mk acc.reverse, [])
  | t :: rest =>
    if t.tokenType = .space ∨ t.tokenType = .exclam ∨ t.tokenType = .at then
      (String.mk acc.reverse, t :: rest)
    else sourceNick (t.value :: acc) rest

/-- User part of `source`: after `!`, up to space or `@`. -/
def sourceUser (acc : List Char) : List Token → String × List Token
  | [] => (String.mk acc.reverse, [])
  | t :: rest =>
    if t.tokenType = .space ∨ t.tokenType = .at then (String.mk acc.reverse, t :: rest)
    else sourceUser (t.value :: acc) rest

/-- Host part of `source`: after `@`, up to space. -/
def sourceHost (acc : List Char) : List Token → String × List Token
  | [] => (String.mk acc.reverse, [])
  | t :: rest =>
    if t.tokenType = .space then (String.mk acc.reverse, t :: rest)
    else sourceHost (t.value :: acc) rest

/-- Embedding of `source`: `nickname [["!" user] "@" host]`. -/
def sourceF (ts : List Token) : (String × String × String) × List Token :=
  let (nick, ts1) := sourceNick [] ts
  let (user, ts2) :=
    match ts1 with
    | t :: rest => if t.tokenType = TokenType.exclam then sourceUser [] rest else ("", ts1)
    | [] => ("", ts1)
  let (host, ts3) :=
    match ts2 with
    | t :: rest => if t.tokenType = TokenType.at then sourceHost [] rest else ("", ts2)
    | [] => ("", ts2)
  ((nick, user, host), ts3)

/-- Embedding of `command`: longest run of letters. -/
def commandLoop (acc : List Char) : List Token → String × List Token
  | [] => (String.mk acc.reverse, [])
  | t :: rest =>
    if IsLetter t.value then commandLoop (t.value :: acc) rest
    else (String.mk acc.reverse, t :: rest)

/-- Inner loop of `middle`: colons and nospcrlfcl characters, one token
per step (the source consumes nospcrlfcl characters in maximal runs; the
accumulated string and final position are identical). -/
def middleLoop (acc : List Char) : List Token → String × List Token
  | [] => (String.mk acc.reverse, [])
  | t :: rest =>
    if t.tokenType = .colon then middleLoop (t.value :: acc) rest
    else if isNospcrlfcl t.value then middleLoop (t.value :: acc) rest
    else (String.mk acc.reverse, t :: rest)

/-- Embedding of `middle`: requires a first nospcrlfcl character
(returning the empty string in place otherwise), then the loop. -/
def middleF (ts : List Token) : String × List Token :=
  match ts with
  | [] => ("", ts)
  | t :: _ => if ¬ isNospcrlfcl t.value then ("", ts) else middleLoop [] ts

/-- Embedding of `trailing`: colons, spaces and nospcrlfcl characters
until CR, LF, NUL or end of input (one token per step, as for
`middleLoop`). -/
def trailingLoop (acc : List Char) : List Token → String × List Token
  | [] => (String.mk acc.reverse, [])
  | t :: rest =>
    if t.tokenType = .colon ∨ t.tokenType = .space then trailingLoop (t.value :: acc) rest
    else if isNospcrlfcl t.value then trailingLoop (t.value :: acc) rest
    else (String.mk acc.reverse, t :: rest)

/-- Loop of `params`: a space then either a `:`-introduced trailing
parameter (ending the list) or a middle parameter. The first argument is
fuel: every iteration consumes at least the space, so passing the input
itself can never run out. -/
def paramsLoop : List Token → List String → List Token →
    List String × Bool × List Token
  | [], acc, ts => (acc, false, ts)
  | _ :: fuel, acc, ts =>
    match ts with
    | ⟨TokenType.space, _⟩ :: rest =>
      match rest with
      | ⟨TokenType.colon, _⟩ :: rest2 =>
        let (tr, r) := trailingLoop [] rest2
        (acc ++ [tr], true, r)
      | _ =>
        let (m, r) := middleF rest
        paramsLoop fuel (acc ++ [m]) r
    | _ => (acc, false, ts)

/-- Embedding of `params`. -/
def paramsF (ts : List Token) : List String × Bool × List Token :=
  paramsLoop ts [] ts

/-- Expect one token of the given class (`Parser.Expect`). -/
def expectTok (tt : TokenType) (ts : List Token) : Option (List Token) :=
  match ts with
  | t :: rest => if t.tokenType = tt then some rest else none
  | [] => none

/-- Optional tag section of `Parse`: an `@` introduces `tags`, which must
be followed by a space. -/
def tagSection (ts : List Token) : Option (List (String × TagVal) × List Token) :=
  match ts with
  | ⟨TokenType.at, _⟩ :: rest =>
    let (tg, r) := tagsF rest
    match expectTok .space r with
    | none => none
    | some r2 => some (tg, r2)
  | _ => some ([], ts)

/-- Optional source section of `Parse`: a colon introduces `source`,
which must be followed by a space. -/
def sourceSection (ts : List Token) :
    Option ((String × String × String) × List Token) :=
  match ts with
  | ⟨TokenType.colon, _⟩ :: rest =>
    let (src, r) := sourceF rest
    match expectTok .space r with
    | none => none
    | some r2 => some (src, r2)
  | _ => some (("", "", ""), ts)

/-- Parsed message (`msg.Message`): tag map, source triple, command,
parameter list and the trailing flag. -/
structure Message where
  tags : List (String × TagVal)
  nick : String
  user : String
  host : String
  command : String
  params : List String
  trailingSet : Bool
  deriving DecidableEq, Repr

/-- Errors of `Parse`: the various parse failures collapse to one
constructor; the size failures are `ErrMsgSizeOverflow`. -/
inductive MsgErr
  | parseErr
  | msgSizeOverflow
  deriving DecidableEq, Repr

/-- Tag-section byte limit (`maxTags`). -/
def maxTags : Nat := 8191

/-- Remainder byte limit (`maxMsg`). -/
def maxMsg : Nat := 512

/-- Embedding of `msg.Parse`. `BytesRead` of the Go parser is the number
of consumed tokens, i.e. the input length minus the remaining length:
the tag-section size is checked right after the tag section (before
anything else is parsed), and the remainder size after the CRLF. -/
def Parse (t : List Token) : Except MsgErr Message :=
  if t.isEmpty then .error .parseErr
  else
    match tagSection t with
    | none => .error .parseErr
    | some (tg, r1) =>
      if t.length - r1.length > maxTags then .error .msgSizeOverflow
      else
        match sourceSection r1 with
        | none => .error .parseErr
        | some (src, r2) =>
          match commandLoop [] r2 with
          | (cmd, r3) =>
            match paramsF r3 with
            | (ps, trSet, r4) =>
              match expectTok .cr r4 with
              | none => .error .parseErr
              | some r5 =>
                match expectTok .lf r5 with
                | none => .error .parseErr
                | some r6 =>
                  if (t.length - r6.length) - (t.length - r1.length) > maxMsg then
                    .error .msgSizeOverflow
                  else .ok ⟨tg, src.1, src.2.1, src.2.2, cmd, ps, trSet⟩

/-- Structural parse: the same stages as `Parse` with the two size
checks removed, returning the message together with the tag-section byte
count and the remainder byte count. -/
def structParse (t : List Token) : Option (Message × Nat × Nat) :=
  if t.isEmpty then none
  else
    match tagSection t with
    | none => none
    | some (tg, r1) =>
      match sourceSection r1 with
      | none => none
      | some (src, r2) =>
        match commandLoop [] r2 with
        | (cmd, r3) =>
          match paramsF r3 with
          | (ps, trSet, r4) =>
            match expectTok .cr r4 with
            | none => none
            | some r5 =>
              match expectTok .lf r5 with
              | none => none
              | some r6 =>
                some (⟨tg, src.1, src.2.1, src.2.2, cmd, ps, trSet⟩,
                      t.length - r1.length,
                      (t.length - r6.length) - (t.length - r1.length))

/-! ## Boundary input for the size-limit claim -/

/-- Key characters of the boundary tag: 8,189 times `k`, so that `@`,
the key and the closing space total exactly 8,191 bytes. -/
def c2KeyChars : List Char := List.replicate 8189 'k'

/-- Command characters of the boundary message: 510 times `A`, so that
the command and CRLF total exactly 512 bytes. -/
def c2CmdChars : List Char := List.replicate 510 'A'

/-- Boundary input: tag section exactly 8,191 bytes, remainder exactly
512 bytes. -/
def c2Boundary : List Token :=
  lexL ('@' :: (c2KeyChars ++ (' ' :: (c2CmdChars ++ ['\r', '\n']))))

/-- Message parsed from the boundary input. -/
def c2Msg : Message :=
  ⟨[(String.mk c2KeyChars, ⟨"", "", false⟩)], "", "", "",
   String.mk c2CmdChars, [], false⟩

/-! ## Concrete fixtures for the messaging scenarios -/

/-- Sender client `alice` (no capabilities). -/
def exAlice : CClient := ⟨1, "alice", "alice", "h", false, "", []⟩

/-- Recipient client `bob`, Away with message `gone`. -/
def exBob : CClient := ⟨2, "bob", "bob", "h", true, "gone", []⟩

/-- Registry with alice and the away bob, no channels. -/
def exServerAway : CServer := ⟨[("alice", exAlice), ("bob", exBob)], []⟩

/-- Sender client `alice` with the echo-message capability negotiated. -/
def exAliceEcho : CClient := ⟨1, "alice", "alice", "h", false, "", ["echo-message"]⟩

/-- Channel `#room` with members alice (founder) and bob. -/
def exRoom : CChan :=
  ⟨false, false, [("alice", ⟨1, "~"⟩), ("bob", ⟨2, ""⟩)]⟩

/-- Registry with alice (echo-message) and bob joined to `#room`. -/
def exServerRoom : CServer :=
  ⟨[("alice", exAliceEcho), ("bob", exBob)], [("#room", exRoom)]⟩

/-! ## Theorems -/

/-- C1 counterexample: pre-registration, a QUIT (likewise an
AUTHENTICATE) message is silently discarded by the dispatcher, so the
claim that its handler is invoked before registration fails. -/
theorem executeMessage_preReg_quit_discarded :
    executeMessage false "QUIT" = .discarded ∧
    executeMessage false "AUTHENTICATE" = .discarded ∧
    DispatchResult.discarded ≠ DispatchResult.handled "QUIT" := by
  refine ⟨by decide, by decide, by decide⟩

/-- C1 (amended): pre-registration, every verb other than CAP, NICK,
USER and PASS — including AUTHENTICATE and QUIT — is silently discarded,
and each of those four verbs is dispatched to its handler. -/
theorem executeMessage_preReg (cmd : String)
    (h : cmd ≠ "CAP" ∧ cmd ≠ "NICK" ∧ cmd ≠ "USER" ∧ cmd ≠ "PASS") :
    executeMessage false cmd = .discarded ∧
    executeMessage false "CAP" = .handled "CAP" ∧
    executeMessage false "NICK" = .handled "NICK" ∧
    executeMessage false "USER" = .handled "USER" ∧
    executeMessage false "PASS" = .handled "PASS" := by
  refine ⟨?_, by decide, by decide, by decide, by decide⟩
  simp [executeMessage, h.1, h.2.1, h.2.2.1, h.2.2.2]

/-- C1 witness: the amended statement applied to the QUIT verb. -/
theorem executeMessage_preReg_witness :
    executeMessage false "QUIT" = .discarded ∧
    executeMessage false "CAP" = .handled "CAP" ∧
    executeMessage false "NICK" = .handled "NICK" ∧
    executeMessage false "USER" = .handled "USER" ∧
    executeMessage false "PASS" = .handled "PASS" :=
  executeMessage_preReg "QUIT" (by decide)

/-- C4: a fresh client holds ten grants; ten consecutive `ReadMsg` calls
without refill each obtain a grant and read their line, and the eleventh
returns `ErrFlood`. -/
theorem readMsg_flood_after_ten :
    newClientGrants = 10 ∧
    readMsgSeq 11 newClientGrants =
      List.replicate 10 (Except.ok pingLine) ++ [Except.error ReadErr.flood] :=
  ⟨rfl, rfl⟩

/-- C9 counterexample: a WALLOPS invocation with exactly one parameter
completes normally (no out-of-bounds read of `params[1]`) when no client
has the Wallops mode set, refuting that every such invocation reaches
the out-of-bounds read. -/
theorem wallops_no_oob_without_wallops_client :
    WALLOPS "srv" [⟨"u", false⟩] ["text"] = some [] ∧
    (some [] : Option (List WEv)) ≠ none := by
  refine ⟨rfl, by decide⟩

/-- C9 (amended): a WALLOPS invocation with exactly one parameter reads
`params[1]` out of bounds — the handler is not total on inputs passing
its own length check — as soon as some client has the Wallops mode. -/
theorem wallops_oob_with_wallops_client (serverName : String)
    (clients : List WClient) (params : List String)
    (hlen : params.length = 1) (hw : ∃ c ∈ clients, c.wallops = true) :
    WALLOPS serverName clients params = none := by
  have hget : params[1]? = none := by
    rw [List.getElem?_eq_none_iff]
    omega
  unfold WALLOPS
  rw [if_neg (by omega)]
  induction clients with
  | nil => simp at hw
  | cons v rest ih =>
    obtain ⟨c, hc, hcw⟩ := hw
    unfold wallopsLoop
    rcases List.mem_cons.mp hc with hcv | hcr
    · subst hcv
      simp [hcw, hget]
    · cases hvw : v.wallops
      · exact ih ⟨c, hcr, hcw⟩
      · simp [hget]

/-- C9 witness: the amended statement applied to one Wallops-mode
client and a single-parameter invocation. -/
theorem wallops_oob_witness :
    WALLOPS "srv" [⟨"w", true⟩] ["text"] = none :=
  wallops_oob_with_wallops_client "srv" [⟨"w", true⟩] ["text"] rfl
    ⟨⟨"w", true⟩, List.Mem.head _, rfl⟩

/-- C5 counterexample: a PRIVMSG to the away bob produces only RPL_AWAY
to the sender — the message is not forwarded — and a NOTICE to bob
produces the same RPL_AWAY although the claim says NOTICE never does. -/
theorem communicate_away_counterexample :
    communicate exServerAway ["bob", "hi"] exAlice false =
      some [CEv.numeric 1 (CReply.rplAway "bob" "gone")] ∧
    communicate exServerAway ["bob", "hi"] exAlice true =
      some [CEv.numeric 1 (CReply.rplAway "bob" "gone")] ∧
    CEv.write 2 (commLine exAlice "PRIVMSG" "bob" "hi") ∉
      [CEv.numeric 1 (CReply.rplAway "bob" "gone")] := by
  refine ⟨rfl, rfl, by decide⟩

/-- C5 (amended): for a PRIVMSG or NOTICE to a nick target, an Away
recipient gets nothing while the sender receives RPL_AWAY (for NOTICE
too); a non-Away recipient receives the forwarded line. -/
theorem communicate_nick_away (s : CServer) (c target : CClient)
    (v msgText : String) (notice : Bool)
    (hsplit : splitStr v ',' = [v])
    (hch : isChannel v = some false)
    (hcl : alist.lookup s.clients v = some target) :
    (target.away = true →
      communicate s [v, msgText] c notice =
        some [CEv.numeric c.id (CReply.rplAway target.nick target.awayMsg)]) ∧
    (target.away = false →
      communicate s [v, msgText] c notice =
        some [CEv.write target.id
          (commLine c (if notice then "NOTICE" else "PRIVMSG") v msgText)]) := by
  constructor
  · intro ha
    simp [communicate, commLoop, hsplit, hch, hcl, ha]
  · intro ha
    simp [communicate, commLoop, hsplit, hch, hcl, ha]

/-- C5 witness: the amended statement at the concrete away registry. -/
theorem communicate_nick_away_witness :
    (exBob.away = true →
      communicate exServerAway ["bob", "hi"] exAlice false =
        some [CEv.numeric exAlice.id (CReply.rplAway exBob.nick exBob.awayMsg)]) ∧
    (exBob.away = false →
      communicate exServerAway ["bob", "hi"] exAlice false =
        some [CEv.write exBob.id
          (commLine exAlice (if false then "NOTICE" else "PRIVMSG") "bob" "hi")]) :=
  communicate_nick_away exServerAway exAlice exBob "bob" "hi" false rfl rfl rfl

/-- C6 counterexample: alice has negotiated echo-message, yet her channel
PRIVMSG is delivered only to bob — no copy goes back to her. -/
theorem communicate_echo_counterexample :
    exAliceEcho.caps = ["echo-message"] ∧
    communicate exServerRoom ["#room", "hi"] exAliceEcho false =
      some [CEv.write 2 (commLine exAliceEcho "PRIVMSG" "#room" "hi")] ∧
    CEv.write 1 (commLine exAliceEcho "PRIVMSG" "#room" "hi") ∉
      [CEv.write 2 (commLine exAliceEcho "PRIVMSG" "#room" "hi")] := by
  refine ⟨rfl, rfl, by decide⟩

/-- C6 (amended): a channel message passing the no-external and
moderation checks is forwarded to every member except the sender, and
the sender never receives a copy — the negotiated capabilities (in
particular echo-message) play no role. -/
theorem communicate_channel_excludes_sender (s : CServer) (c : CClient)
    (v msgText : String) (notice : Bool) (ch : CChan) (m : CMember)
    (hsplit : splitStr v ',' = [v])
    (hch : isChannel v = some true)
    (hlook : alist.lookup s.channels v = some ch)
    (hmem : alist.lookup ch.members c.nick = some m)
    (hmod : ¬(ch.moderated = true ∧ m.pfx = "")) :
    communicate s [v, msgText] c notice =
      some ((ch.members.filter (fun p => p.2.clientId ≠ c.id)).map
        (fun p => CEv.write p.2.clientId
          (commLine c (if notice then "NOTICE" else "PRIVMSG") v msgText))) ∧
    ∀ line, CEv.write c.id line ∉
      ((ch.members.filter (fun p => p.2.clientId ≠ c.id)).map
        (fun p => CEv.write p.2.clientId
          (commLine c (if notice then "NOTICE" else "PRIVMSG") v msgText))) := by
  constructor
  · simp [communicate, commLoop, hsplit, hch, hlook, hmem, hmod]
  · intro line hmemb
    simp only [List.mem_map, List.mem_filter] at hmemb
    obtain ⟨p, ⟨_, hpne⟩, hpe⟩ := hmemb
    have : p.2.clientId = c.id := by
      injection hpe
    simp [this] at hpne

/-- C6 witness: the amended statement at the concrete `#room` registry,
with the echo-message-capable alice as the sender. -/
theorem communicate_channel_excludes_sender_witness :
    communicate exServerRoom ["#room", "hi"] exAliceEcho false =
      some ((exRoom.members.filter (fun p => p.2.clientId ≠ exAliceEcho.id)).map
        (fun p => CEv.write p.2.clientId
          (commLine exAliceEcho (if false then "NOTICE" else "PRIVMSG") "#room" "hi"))) ∧
    ∀ line, CEv.write exAliceEcho.id line ∉
      ((exRoom.members.filter (fun p => p.2.clientId ≠ exAliceEcho.id)).map
        (fun p => CEv.write p.2.clientId
          (commLine exAliceEcho (if false then "NOTICE" else "PRIVMSG") "#room" "hi"))) :=
  communicate_channel_excludes_sender exServerRoom exAliceEcho "#room" "hi" false
    exRoom ⟨1, "~"⟩ rfl rfl rfl rfl (by simp [exRoom])

/-- C10: a NOTICE with fewer than two parameters reaches the unguarded
reads of `params[0]` and `params[1]` and goes out of bounds (`none`),
because the missing-text guard applies only when the notice flag is
false; a PRIVMSG with the same parameters is stopped by the guard. -/
theorem communicate_notice_short_params (s : CServer) (c : CClient)
    (params : List String) (h : params.length < 2) :
    communicate s params c true = none ∧
    communicate s params c false = some [CEv.numeric c.id CReply.noTextToSend] := by
  constructor
  · rcases params with _ | ⟨p, _ | ⟨q, rest⟩⟩
    · rfl
    · rfl
    · simp only [List.length_cons] at h
      omega
  · simp [communicate, h]

/-- C10 witness: the statement at a one-parameter NOTICE/PRIVMSG. -/
theorem communicate_notice_short_params_witness :
    communicate exServerAway ["bob"] exAlice true = none ∧
    communicate exServerAway ["bob"] exAlice false =
      some [CEv.numeric exAlice.id CReply.noTextToSend] :=
  communicate_notice_short_params exServerAway exAlice ["bob"] (by decide)

/-- C3: evaluating the handlers at the failing input. Alice's JOIN
creates `#a` with alice as its only member; bob, who is not a member,
then PARTs `#a`, and because `clientBelongstoChan` hands the channel
back even for non-members, the length-one branch deletes `#a` from the
registry although alice never left — the exists-iff-members invariant is
broken by the code. -/
theorem part_nonmember_deletes_inhabited_channel :
    JOIN lState0 lAlice ["#a"] = some lState1 ∧
    alist.lookup lState1.channels "#a" = some lChanA ∧
    lChanA.members = [("alice", ⟨"~"⟩)] ∧
    alist.lookup lChanA.members "bob" = none ∧
    PART lState1 lBob ["#a"] = some ⟨[]⟩ :=
  ⟨rfl, rfl, rfl, rfl, rfl⟩

/-- C8: evaluating the handler at the failing input. A fresh client
(no mechanism, unauthenticated) sending `AUTHENTICATE SCRAM-SHA-256`
gets RPL_SASLMECHS and no mechanism object, although SCRAM-SHA-256 is a
name advertised in the sasl capability value; the literal `SCRAM` is
what the switch accepts. -/
theorem authenticate_scram_sha256_rejected :
    AUTHENTICATE ⟨false, false, none⟩ ["SCRAM-SHA-256"] =
      (.saslMechs saslCapValue, ⟨false, false, none⟩) ∧
    "SCRAM-SHA-256" ∈ splitStr saslCapValue ',' ∧
    AUTHENTICATE ⟨false, false, none⟩ ["SCRAM"] =
      (.line "AUTHENTICATE +", ⟨false, false, some .scram⟩) := by
  refine ⟨rfl, by decide, rfl⟩

/-- Bytewise XOR is symmetric (both orders fail to the nil slice on a
length mismatch). -/
theorem bytewiseXOR_comm (b1 b2 : List Nat) :
    bytewiseXOR b1 b2 = bytewiseXOR b2 b1 := by
  unfold bytewiseXOR
  by_cases h : b1.length = b2.length
  · rw [if_neg (by omega), if_neg (by omega)]
    induction b1 generalizing b2 with
    | nil => cases b2 <;> simp
    | cons a as ih =>
      cases b2 with
      | nil => simp
      | cons b bs =>
        simp only [List.zipWith_cons_cons]
        rw [Nat.xor_comm a b, ih bs (by simpa using h)]
  · rw [if_pos (by omega), if_pos (by omega)]

/-- C7: after a successful `ParseClientFinal` (combined nonce matched,
proof decoded), `GenServerFinal` accepts exactly when
`H(proof XOR HMAC(StoredKey, AuthMessage))` equals the stored key, where
AuthMessage joins client-first-bare, server-first and
client-final-without-proof with commas; on acceptance it returns `v=`
followed by the base64 HMAC of the auth message under the ServerKey, and
on mismatch the error `e=invalid-proof`. -/
theorem scram_genServerFinal_correct
    (hashF : List Nat → List Nat) (hmacF : List Nat → String → List Nat)
    (st st2 : Scram) (m : String)
    (hp : ParseClientFinal st m = some (Except.ok st2)) :
    (GenServerFinal hashF hmacF st2 =
        .ok ("v=" ++ b64encode (hmacF st2.cred.serverKey
          (st2.clientFirstBare ++ "," ++ st2.serverFirst ++ "," ++
            st2.clientFinalWithoutProof)))
      ↔ hashF (bytewiseXOR st2.proof
          (hmacF st2.cred.storedKey
            (st2.clientFirstBare ++ "," ++ st2.serverFirst ++ "," ++
              st2.clientFinalWithoutProof))) = st2.cred.storedKey) ∧
    (hashF (bytewiseXOR st2.proof
        (hmacF st2.cred.storedKey
          (st2.clientFirstBare ++ "," ++ st2.serverFirst ++ "," ++
            st2.clientFinalWithoutProof))) ≠ st2.cred.storedKey →
      GenServerFinal hashF hmacF st2 = .error "e=invalid-proof") := by
  rw [bytewiseXOR_comm st2.proof]
  unfold GenServerFinal
  by_cases hk : hashF (bytewiseXOR
      (hmacF st2.cred.storedKey
        (st2.clientFirstBare ++ "," ++ st2.serverFirst ++ "," ++
          st2.clientFinalWithoutProof)) st2.proof) = st2.cred.storedKey
  · simp [hk]
  · simp [hk]

/-- Hash standing in for `H` in the C7 witness: constantly nil. -/
def wHash : List Nat → List Nat := fun _ => []

/-- HMAC standing in for the MAC in the C7 witness: constantly nil. -/
def wHmac : List Nat → String → List Nat := fun _ _ => []

/-- Credential for the C7 witness (empty keys). -/
def wCred : Credential := ⟨[], [], [], 1⟩

/-- Exchange state for the C7 witness before the client-final message. -/
def wScram : Scram := ⟨"u", "N", [], "n=u,r=N", "r=N,s=,i=1", "", wCred⟩

/-- Exchange state for the C7 witness after parsing
`c=biws,r=N,p=`. -/
def wScram2 : Scram := ⟨"u", "N", [], "n=u,r=N", "r=N,s=,i=1", "c=biws,r=N", wCred⟩

/-- C7 witness: the theorem at a concrete successful client-final
parse. -/
theorem scram_genServerFinal_witness :
    (GenServerFinal wHash wHmac wScram2 =
        .ok ("v=" ++ b64encode (wHmac wScram2.cred.serverKey
          (wScram2.clientFirstBare ++ "," ++ wScram2.serverFirst ++ "," ++
            wScram2.clientFinalWithoutProof)))
      ↔ wHash (bytewiseXOR wScram2.proof
          (wHmac wScram2.cred.storedKey
            (wScram2.clientFirstBare ++ "," ++ wScram2.serverFirst ++ "," ++
              wScram2.clientFinalWithoutProof))) = wScram2.cred.storedKey) ∧
    (wHash (bytewiseXOR wScram2.proof
        (wHmac wScram2.cred.storedKey
          (wScram2.clientFirstBare ++ "," ++ wScram2.serverFirst ++ "," ++
            wScram2.clientFinalWithoutProof))) ≠ wScram2.cred.storedKey →
      GenServerFinal wHash wHmac wScram2 = .error "e=invalid-proof") :=
  scram_genServerFinal_correct wHash wHmac wScram wScram2 "c=biws,r=N,p=" rfl

/-- C2: for every token list whose structural parse succeeds (well-formed
apart from the size limits), `Parse` returns `ErrMsgSizeOverflow` exactly
when the tag section exceeds 8,191 bytes or the remainder exceeds 512
bytes, and within both limits it returns the parsed message. -/
theorem parse_size_limits (t : List Token) (m : Message) (tagBytes bodyBytes : Nat)
    (h : structParse t = some (m, tagBytes, bodyBytes)) :
    ((Parse t = .error .msgSizeOverflow) ↔ (tagBytes > maxTags ∨ bodyBytes > maxMsg)) ∧
    (tagBytes ≤ maxTags → bodyBytes ≤ maxMsg → Parse t = .ok m) := by
  unfold structParse at h
  unfold Parse
  cases ht : t.isEmpty
  · simp only [ht, Bool.false_eq_true, if_false] at h ⊢
    rcases htag : tagSection t with _ | ⟨tg, r1⟩
    · simp [htag] at h
    simp only [htag] at h ⊢
    rcases hsrc : sourceSection r1 with _ | ⟨src, r2⟩
    · simp [hsrc] at h
    simp only [hsrc] at h ⊢
    rcases hcmd : commandLoop [] r2 with ⟨cmd, r3⟩
    simp only [hcmd] at h ⊢
    rcases hpar : paramsF r3 with ⟨ps, trSet, r4⟩
    simp only [hpar] at h ⊢
    rcases hcr : expectTok .cr r4 with _ | r5
    · simp [hcr] at h
    simp only [hcr] at h ⊢
    rcases hlf : expectTok .lf r5 with _ | r6
    · simp [hlf] at h
    simp only [hlf] at h ⊢
    obtain ⟨hm, ha, hb⟩ : m = _ ∧ tagBytes = _ ∧ bodyBytes = _ := by
      have h' := h.symm
      simp only [Option.some_inj, Prod.mk.injEq] at h'
      exact ⟨h'.1, h'.2.1, h'.2.2⟩
    subst hm
    subst ha
    subst hb
    by_cases h1 : t.length - r1.length > maxTags
    · rw [if_pos h1]
      refine ⟨by simp [h1], ?_⟩
      intro hta _
      omega
    · rw [if_neg h1]
      by_cases h2 : t.length - r6.length - (t.length - r1.length) > maxMsg
      · rw [if_pos h2]
        refine ⟨by simp [h2], ?_⟩
        intro _ htb
        omega
      · rw [if_neg h2]
        refine ⟨by simp [h1, h2], fun _ _ => rfl⟩
  · rw [if_pos ht] at h
    cases h

/-- Key scanning over a run of `k` letter tokens accumulates them all. -/
theorem keyF_replicate_k (n : Nat) (ud : Bool) (vendor : List Char) (ts : List Token) :
    ∀ name : List Char,
      keyF ud vendor name (List.replicate n ⟨TokenType.letter, 'k'⟩ ++ ts) =
        keyF ud vendor (List.replicate n 'k' ++ name) ts := by
  induction n with
  | zero => intro name; simp
  | succ n ih =>
    intro name
    have hL : List.replicate (n + 1) (⟨TokenType.letter, 'k'⟩ : Token) ++ ts =
        ⟨TokenType.letter, 'k'⟩ :: (List.replicate n ⟨TokenType.letter, 'k'⟩ ++ ts) := by
      rw [List.replicate_succ, List.cons_append]
    have hR : List.replicate (n + 1) 'k' ++ name =
        List.replicate n 'k' ++ ('k' :: name) := by
      rw [List.replicate_succ', List.append_assoc, List.singleton_append]
    rw [hL, hR]
    simp only [keyF]
    rw [if_neg (by decide)]
    exact ih ('k' :: name)

/-- Command scanning over a run of `A` letter tokens accumulates them
all. -/
theorem commandLoop_replicate_A (n : Nat) (ts : List Token) :
    ∀ acc : List Char,
      commandLoop acc (List.replicate n ⟨TokenType.letter, 'A'⟩ ++ ts) =
        commandLoop (List.replicate n 'A' ++ acc) ts := by
  induction n with
  | zero => intro acc; simp
  | succ n ih =>
    intro acc
    have hL : List.replicate (n + 1) (⟨TokenType.letter, 'A'⟩ : Token) ++ ts =
        ⟨TokenType.letter, 'A'⟩ :: (List.replicate n ⟨TokenType.letter, 'A'⟩ ++ ts) := by
      rw [List.replicate_succ, List.cons_append]
    have hR : List.replicate (n + 1) 'A' ++ acc =
        List.replicate n 'A' ++ ('A' :: acc) := by
      rw [List.replicate_succ', List.append_assoc, List.singleton_append]
    rw [hL, hR]
    simp only [commandLoop]
    rw [if_pos (by decide)]
    exact ih ('A' :: acc)

/-- Key scanning of a nonempty `k`-run terminated by a space consumes
exactly the run. -/
theorem keyF_boundary (n : Nat) (tail : List Token) :
    keyF false [] [] (List.replicate (n + 1) ⟨TokenType.letter, 'k'⟩ ++
        (⟨TokenType.space, ' '⟩ :: tail)) =
      ("", String.mk (List.replicate (n + 1) 'k'), ⟨TokenType.space, ' '⟩ :: tail) := by
  rw [keyF_replicate_k (n + 1) false [] (⟨TokenType.space, ' '⟩ :: tail) []]
  simp only [keyF]
  rw [if_pos (by decide), if_neg (by decide), if_neg (by decide), if_neg (by decide)]
  simp [List.reverse_replicate]

/-- Tag scanning of a nonempty `k`-run terminated by a space yields one
tag whose key is the run, with empty vendor and value. -/
theorem tagF_boundary (n : Nat) (tail : List Token) :
    tagF (List.replicate (n + 1) ⟨TokenType.letter, 'k'⟩ ++
        (⟨TokenType.space, ' '⟩ :: tail)) =
      (String.mk (List.replicate (n + 1) 'k'), ⟨"", "", false⟩,
        ⟨TokenType.space, ' '⟩ :: tail) := by
  have hcons : List.replicate (n + 1) (⟨TokenType.letter, 'k'⟩ : Token) ++
      (⟨TokenType.space, ' '⟩ :: tail) =
      ⟨TokenType.letter, 'k'⟩ ::
        (List.replicate n ⟨TokenType.letter, 'k'⟩ ++ (⟨TokenType.space, ' '⟩ :: tail)) := by
    rw [List.replicate_succ, List.cons_append]
  rw [hcons]
  simp only [tagF]
  rw [if_neg (by decide), ← hcons]
  simp only [tagFAfterPfx, keyF_boundary n tail]
  rw [if_neg (by decide)]

/-- Command scanning of a nonempty `A`-run terminated by CR consumes
exactly the run. -/
theorem commandLoop_boundary (n : Nat) (tail : List Token) :
    commandLoop [] (List.replicate (n + 1) ⟨TokenType.letter, 'A'⟩ ++
        (⟨TokenType.cr, '\r'⟩ :: tail)) =
      (String.mk (List.replicate (n + 1) 'A'), ⟨TokenType.cr, '\r'⟩ :: tail) := by
  rw [commandLoop_replicate_A (n + 1) (⟨TokenType.cr, '\r'⟩ :: tail) []]
  simp only [commandLoop]
  rw [if_neg (by decide)]
  simp [List.reverse_replicate]

/-- The tag loop stops at a space (not a semicolon). -/
theorem tagsLoop_space (f0 : Token) (f : List Token)
    (acc : List (String × TagVal)) (rest : List Token) :
    tagsLoop (f0 :: f) acc (⟨TokenType.space, ' '⟩ :: rest) =
      (acc, ⟨TokenType.space, ' '⟩ :: rest) := rfl

/-- The tag section of the boundary input: one `k`-run key, then the
closing space. -/
theorem tagSection_boundary (n : Nat) (tail : List Token) :
    tagSection (⟨TokenType.at, '@'⟩ ::
        (List.replicate (n + 1) ⟨TokenType.letter, 'k'⟩ ++
          (⟨TokenType.space, ' '⟩ :: tail))) =
      some ([(String.mk (List.replicate (n + 1) 'k'), ⟨"", "", false⟩)], tail) := by
  simp only [tagSection, tagsF, tagF_boundary n tail, tagsLoop_space, alist.set,
    expectTok]
  simp

/-- The source section does not fire on a letter head. -/
theorem sourceSection_boundary (n : Nat) (tail : List Token) :
    sourceSection (List.replicate (n + 1) ⟨TokenType.letter, 'A'⟩ ++ tail) =
      some (("", "", ""), List.replicate (n + 1) ⟨TokenType.letter, 'A'⟩ ++ tail) := by
  rw [List.replicate_succ, List.cons_append]
  rfl

/-- The parameter loop stops at CR. -/
theorem paramsF_cr (rest : List Token) :
    paramsF (⟨TokenType.cr, '\r'⟩ :: rest) =
      ([], false, ⟨TokenType.cr, '\r'⟩ :: rest) := rfl

/-- Evaluation rule for `structParse` in terms of its stages. -/
theorem structParse_eval
    (t : List Token) (h0 : t.isEmpty = false)
    (tg : List (String × TagVal)) (r1 : List Token)
    (h1 : tagSection t = some (tg, r1))
    (src : String × String × String) (r2 : List Token)
    (h2 : sourceSection r1 = some (src, r2))
    (cmd : String) (r3 : List Token)
    (h3 : commandLoop [] r2 = (cmd, r3))
    (ps : List String) (trSet : Bool) (r4 : List Token)
    (h4 : paramsF r3 = (ps, trSet, r4))
    (r5 r6 : List Token)
    (h5 : expectTok .cr r4 = some r5)
    (h6 : expectTok .lf r5 = some r6) :
    structParse t = some (⟨tg, src.1, src.2.1, src.2.2, cmd, ps, trSet⟩,
      t.length - r1.length, (t.length - r6.length) - (t.length - r1.length)) := by
  unfold structParse
  simp only [h0, Bool.false_eq_true, if_false, h1, h2, h3, h4, h5, h6]

/-- Structural parse of a run-of-`k` tag plus run-of-`A` command input,
for arbitrary nonzero run lengths: the tag-section byte count is the key
run plus `@` and the space, the remainder is the command run plus CRLF. -/
theorem structParse_kA (n m : Nat) :
    structParse (⟨TokenType.at, '@'⟩ ::
        (List.replicate (n + 1) ⟨TokenType.letter, 'k'⟩ ++
          (⟨TokenType.space, ' '⟩ ::
            (List.replicate (m + 1) ⟨TokenType.letter, 'A'⟩ ++
              [⟨TokenType.cr, '\r'⟩, ⟨TokenType.lf, '\n'⟩])))) =
      some (⟨[(String.mk (List.replicate (n + 1) 'k'), ⟨"", "", false⟩)],
             "", "", "", String.mk (List.replicate (m + 1) 'A'), [], false⟩,
            n + 3, m + 3) := by
  have hev := structParse_eval
    (⟨TokenType.at, '@'⟩ ::
      (List.replicate (n + 1) ⟨TokenType.letter, 'k'⟩ ++
        (⟨TokenType.space, ' '⟩ ::
          (List.replicate (m + 1) ⟨TokenType.letter, 'A'⟩ ++
            [⟨TokenType.cr, '\r'⟩, ⟨TokenType.lf, '\n'⟩]))))
    rfl _ _
    (tagSection_boundary n
      (List.replicate (m + 1) ⟨TokenType.letter, 'A'⟩ ++
        [⟨TokenType.cr, '\r'⟩, ⟨TokenType.lf, '\n'⟩]))
    _ _
    (sourceSection_boundary m [⟨TokenType.cr, '\r'⟩, ⟨TokenType.lf, '\n'⟩])
    _ _
    (commandLoop_boundary m [⟨TokenType.lf, '\n'⟩])
    _ _ _
    (paramsF_cr [⟨TokenType.lf, '\n'⟩])
    _ _ rfl rfl
  refine hev.trans ?_
  simp only [List.length_cons, List.length_append, List.length_replicate,
    List.length_nil]
  congr 1
  congr 1
  congr 1
  · omega
  · omega

/-- Structural parse of the boundary input: tag section of exactly 8,191
bytes and remainder of exactly 512 bytes. -/
theorem structParse_boundary :
    structParse c2Boundary = some (c2Msg, 8191, 512) := by
  have hB : c2Boundary =
      ⟨TokenType.at, '@'⟩ ::
        (List.replicate 8189 ⟨TokenType.letter, 'k'⟩ ++
          (⟨TokenType.space, ' '⟩ ::
            (List.replicate 510 ⟨TokenType.letter, 'A'⟩ ++
              [⟨TokenType.cr, '\r'⟩, ⟨TokenType.lf, '\n'⟩]))) := by
    unfold c2Boundary c2KeyChars c2CmdChars lexL
    simp only [List.map_cons, List.map_append, List.map_replicate, List.map_nil]
    rfl
  have h := structParse_kA 8188 509
  rw [show (8188 : Nat) + 1 = 8189 from rfl, show (509 : Nat) + 1 = 510 from rfl,
    show (8188 : Nat) + 3 = 8191 from rfl, show (509 : Nat) + 3 = 512 from rfl] at h
  rw [hB]
  exact h

/-- C2 witness: the size-limit theorem applied to the boundary input
whose tag section is exactly 8,191 bytes and whose remainder is exactly
512 bytes; it parses successfully. -/
theorem parse_size_limits_witness :
    structParse c2Boundary = some (c2Msg, 8191, 512) ∧
    Parse c2Boundary = Except.ok c2Msg :=
  ⟨structParse_boundary,
    (parse_size_limits c2Boundary c2Msg 8191 512 structParse_boundary).2
      (by decide) (by decide)⟩

end Gossip
